import Mathlib

/-!
Verification development for the paginated streaming engine of the go-canvas
client library (src/course.go and the pagination contract it relies on).

Pure Go functions from src/course.go are embedded directly as Lean functions.
The Paginator, the Error Bridge task and the error-payload types are declared
and used by src/course.go and src/main.go but their bodies live outside the
provided sources; those parts are modelled from the specification, and each
such definition says so in its doc comment.
-/

namespace Canvas

/-- Embeds the `doer` request capability of the library. The streaming engine
never inspects it; it is only threaded through to decoded items, so it is
represented by an opaque tag. -/
structure Doer where
  tag : Nat
deriving DecidableEq, Repr

/-- Embeds a Go `error` value carried through the pagination engine. -/
structure Err where
  msg : String
deriving DecidableEq, Repr

/-- Embeds the Folder struct fields touched by the streaming engine
(src/course.go): the id, the client set by `setclient`, and the nullable
parent pointer set by `sendFoldersFunc`. -/
inductive Folder : Type where
  | mk : Nat → Option Doer → Option Folder → Folder

/-- The id field of a Folder. -/
def Folder.fid : Folder → Nat
  | .mk i _ _ => i

/-- The client field of a Folder. -/
def Folder.client : Folder → Option Doer
  | .mk _ c _ => c

/-- The parent field of a Folder. -/
def Folder.parent : Folder → Option Folder
  | .mk _ _ p => p

/-- Embeds `(*Folder).setclient` (assigns the client field). -/
def Folder.setclient : Folder → Doer → Folder
  | .mk i _ p, d => .mk i (some d) p

/-- Embeds the `f.parent = parent` assignment from `sendFoldersFunc`. -/
def Folder.setParent : Folder → Option Folder → Folder
  | .mk i c _, p => .mk i c p

/-- Embeds the File struct fields touched by the streaming engine
(src/course.go): id, client and the folder pointer set by `sendFilesFunc`. -/
structure File where
  id : Nat
  client : Option Doer := none
  folder : Option Folder := none

/-- Embeds the User struct fields touched by the streaming engine. -/
structure User where
  id : Nat
  client : Option Doer := none
deriving DecidableEq, Repr

/-- Embeds the Assignment struct fields touched by the streaming engine
(src/course.go): id and name as payload, plus the client and courseCode
fields assigned inside `Course.assignmentspager`. -/
structure Assignment where
  id : Nat
  name : String := ""
  client : Option Doer := none
  courseCode : String := ""
deriving DecidableEq, Repr

/-- Embeds the DiscussionTopic payload delivered by `Course.DiscussionTopics`. -/
structure DiscussionTopic where
  id : Nat
deriving DecidableEq, Repr

/-- Embeds the outcome of invoking an error-handler callback: the default
handler panics (fatal abort for the process), while a caller-supplied handler
returns normally and may set the quit (cancellation) signal. -/
inductive HandlerResult where
  | panicked (e : Err)
  | handled (cancel : Bool)
deriving DecidableEq, Repr

/-- Embeds `defaultErrorHandler` (src/course.go): panics on any error. -/
def defaultErrorHandler (e : Err) : HandlerResult := .panicked e

/-- Embeds the Course fields used by the streaming engine (src/course.go):
the numeric ID interpolated into endpoint paths, the course code copied onto
assignments, the request capability, and the registered error handler. -/
structure Course where
  ID : Nat
  CourseCode : String := ""
  client : Doer
  errorHandler : Err → HandlerResult := defaultErrorHandler

/-- Modelled from the spec: Course construction (`newCourse` in the library's
canvas.go) is not under src/; per the spec the error handler of a fresh course
"defaults to a fatal abort policy if never set". -/
def newCourse (i : Nat) (code : String) (d : Doer) : Course :=
  { ID := i, CourseCode := code, client := d }

/-- Embeds `Course.SetErrorHandler` (src/course.go): assigns the errorHandler
field and nothing else. -/
def Course.SetErrorHandler (c : Course) (f : Err → HandlerResult) : Course :=
  { c with errorHandler := f }

/-- Embeds `(*Course).id` (src/course.go): interpolates the course ID into the
path format string. -/
def Course.id (c : Course) (s : String) : String :=
  s.replace "%d" (toString c.ID)

/-- Embeds `sendFilesFunc` (src/course.go): the page body is decoded into a
slice of files before anything is sent; on decode failure the error is
returned with nothing sent; on success each file gets its client and folder
set and all files are sent on the channel in decode order. The first
component is the sequence of items sent on the item channel, the second the
error returned to the pager. -/
def sendFilesFunc (d : Doer) (folder : Option Folder) :
    Except Err (List File) → List File × Option Err
  | .error e => ([], some e)
  | .ok files => (files.map fun f => { f with client := some d, folder := folder }, none)

/-- Embeds `sendFoldersFunc` (src/course.go): decode the whole page first;
on failure return the error with nothing sent; on success set client and
parent on each folder and send them in decode order. -/
def sendFoldersFunc (d : Doer) (parent : Option Folder) :
    Except Err (List Folder) → List Folder × Option Err
  | .error e => ([], some e)
  | .ok folders => (folders.map fun f => (f.setclient d).setParent parent, none)

/-- Embeds `sendUserFunc` (src/course.go): decode the whole page first; on
failure return the error with nothing sent; on success set the client on each
user and send them in decode order. -/
def sendUserFunc (d : Doer) :
    Except Err (List User) → List User × Option Err
  | .error e => ([], some e)
  | .ok list => (list.map fun u => { u with client := some d }, none)

/-- Embeds the decode closure of `Course.assignmentspager` (src/course.go):
decode the whole page first; on failure return the error with nothing sent;
on success set client and courseCode on each assignment and send them in
decode order. -/
def assignmentsSendFunc (c : Course) :
    Except Err (List Assignment) → List Assignment × Option Err
  | .error e => ([], some e)
  | .ok asses =>
      (asses.map fun a => { a with client := some c.client, courseCode := c.CourseCode }, none)

/-- Modelled from the spec: `sendDiscussionTopicFunc` is called from
src/course.go but defined outside src/; per the spec a page decoder parses
one page body into typed items and forwards each into the item stream, and
reports a decode failure as its error. -/
def sendDiscussionTopicFunc :
    Except Err (List DiscussionTopic) → List DiscussionTopic × Option Err
  | .error e => ([], some e)
  | .ok l => (l, none)

/-- Modelled from the spec: the Paginator (`newPaginatedList` and
`paginated.start`) is not under src/. One fetched page, as the Paginator sees
it: either the fetch itself failed with a transport error, or the page's
decode call pushed `sent` items onto the item stream and then returned
`decodeErr` (none on success). -/
inductive PageResult (γ : Type) where
  | fetchErr (e : Err)
  | page (sent : List γ) (decodeErr : Option Err)
deriving DecidableEq, Repr

/-- Whether a page fetched, decoded and was sent without any error. -/
def PageResult.isClean {γ : Type} : PageResult γ → Bool
  | .page _ none => true
  | _ => false

/-- Items a page contributed to the item stream. -/
def PageResult.sentItems {γ : Type} : PageResult γ → List γ
  | .fetchErr _ => []
  | .page sent _ => sent

/-- Signals observable on the stream pair of one Paginator run, in delivery
order: an item delivered on the item stream, a value delivered on the error
stream, or the error stream closing with no value (normal completion). -/
inductive Event (γ : Type) where
  | item (a : γ)
  | errValue (e : Err)
  | closed
deriving DecidableEq, Repr

/-- Whether an event is a value delivered on the error stream. -/
def Event.isErrValue {γ : Type} : Event γ → Bool
  | .errValue _ => true
  | _ => false

/-- Modelled from the spec: the Paginator fetch loop over a pre-determined
sequence of page outcomes. The cursor chain is represented by the list itself:
page n+1 exists exactly when the response to page n carried a cursor. All
items a page's decode call pushed are delivered before that page's own error
(if any); a transport or decode error is sent on the error stream and
terminates the loop; exhausting the cursor closes the error stream with no
value. -/
def paginatorTrace {γ : Type} : List (PageResult γ) → List (Event γ)
  | [] => [.closed]
  | .fetchErr e :: _ => [.errValue e]
  | .page sent none :: rest => sent.map .item ++ paginatorTrace rest
  | .page sent (some e) :: _ => sent.map .item ++ [.errValue e]

/-- Embeds the select loop shared by `Course.ListAssignments`,
`Course.collectUsers` and `Course.DiscussionTopics` (src/course.go), run
against the delivery order of the stream pair: each item received on the item
channel is appended to the accumulator; the first receive on the error
channel (either a delivered value, or the nil obtained from the closed
channel) ends the loop, returning the accumulated items and that error. -/
def collectLoop {γ : Type} : List (Event γ) → List γ × Option Err
  | [] => ([], none)
  | .item a :: rest => (a :: (collectLoop rest).1, (collectLoop rest).2)
  | .errValue e :: _ => ([], some e)
  | .closed :: _ => ([], none)

deriving instance DecidableEq for Except

/-- One raw fetch outcome handed to a page decoder: a transport-level failure,
or the decode result of the page body (the body decoded as a list of typed
items, or a decode error). -/
inductive Fetch (β : Type) where
  | transportErr (e : Err)
  | body (dec : Except Err (List β))
deriving DecidableEq, Repr

/-- Whether a fetch outcome is a successfully decoded body. -/
def Fetch.isOk {β : Type} : Fetch β → Bool
  | .body (.ok _) => true
  | _ => false

/-- Applies a page decoder to one fetch outcome, yielding the page as the
Paginator sees it. -/
def Fetch.run {β γ : Type} (send : Except Err (List β) → List γ × Option Err) :
    Fetch β → PageResult γ
  | .transportErr e => .fetchErr e
  | .body dec => .page (send dec).1 (send dec).2

/-- Embeds `Course.ListAssignments` (src/course.go): starts the assignments
pager over the given fetch outcomes and drains both channels with the select
loop. -/
def Course.ListAssignments (c : Course) (env : List (Fetch Assignment)) :
    List Assignment × Option Err :=
  collectLoop (paginatorTrace (env.map (Fetch.run (assignmentsSendFunc c))))

/-- Embeds `Course.collectUsers` (src/course.go): starts a user pager over the
given fetch outcomes and drains both channels with the select loop. -/
def Course.collectUsers (c : Course) (env : List (Fetch User)) :
    List User × Option Err :=
  collectLoop (paginatorTrace (env.map (Fetch.run (sendUserFunc c.client))))

/-- Embeds `Course.DiscussionTopics` (src/course.go): starts a discussion
topic pager over the given fetch outcomes and drains both channels with the
select loop. -/
def Course.DiscussionTopics (_c : Course) (env : List (Fetch DiscussionTopic)) :
    List DiscussionTopic × Option Err :=
  collectLoop (paginatorTrace (env.map (Fetch.run sendDiscussionTopicFunc)))

/-- Modelled from the spec: the item channel as the Error Bridge can affect
it. An unbuffered Go channel holds no items itself: it is either open (a
receive blocks until a producer hands an item over) or closed (a receive
returns immediately with no item). -/
inductive ChanState where
  | opened
  | closed
deriving DecidableEq, Repr

/-- Whether a handler invocation set the quit (cancellation) signal. -/
def HandlerResult.cancels : HandlerResult → Bool
  | .handled true => true
  | _ => false

/-- Modelled from the spec: `handleErrs`, the Error Bridge task launched by
`Course.Assignments`, `Course.Files` and `Course.Folders` (src/course.go), is
not under src/. It waits for the error stream to resolve; on a delivered
error it invokes the handler, and if the handler set the quit signal the
bridge closes the item channel (via `assignmentChan.Close` and its
analogues, src/course.go); otherwise the channel is left as it was. -/
def handleErrs (errVal : Option Err) (h : Err → HandlerResult) (ch : ChanState) :
    ChanState :=
  match errVal with
  | none => ch
  | some e => if (h e).cancels then .closed else ch

/-- Modelled from the spec: iterating (Go `range`) over an item channel whose
producer has stopped producing. A closed channel ends the iteration at once,
yielding no further items and no panic (`some []`); an open channel with no
producer blocks the receive forever (`none`). -/
def rangeAfterStop (γ : Type) : ChanState → Option (List γ)
  | .closed => some []
  | .opened => none

/-- A started streaming call: the error-handler snapshot that was passed to
the `handleErrs` task when the stream was started, and the first-page URL
handed to the pager. -/
structure ActiveStream where
  handler : Err → HandlerResult
  url : String

/-- Embeds `Course.Assignments` (src/course.go): builds the pager on the
course's assignments URL and launches `handleErrs` with the course's current
error handler, read exactly once, at call time. -/
def Course.Assignments (c : Course) : ActiveStream :=
  { handler := c.errorHandler, url := c.id "/courses/%d/assignments" }

/-- Embeds `Course.Files` (src/course.go): delegates to `filesChannel` with
the course's current error handler, read exactly once, at call time. -/
def Course.Files (c : Course) : ActiveStream :=
  { handler := c.errorHandler, url := c.id "/courses/%d/files" }

/-- Embeds `Course.Folders` (src/course.go): builds the folders pager and
launches `handleErrs` with the course's current error handler, read exactly
once, at call time. -/
def Course.Folders (c : Course) : ActiveStream :=
  { handler := c.errorHandler, url := c.id "/courses/%d/folders" }

/-- Modelled from the spec: the fetch loop run against a consumer that never
receives, with the unbuffered item stream (capacity for exactly one pending
item's worth of backpressure). Each page processed costs one fetch; an empty
page sends nothing and the loop continues to the next cursor; the first item
send finds no receiver and suspends the loop forever. Returns the number of
page fetches issued together with the pending unread item held by the
suspended send (`none` when the loop ran to completion without ever
producing an item). -/
def noConsumerRun {γ : Type} : List (List γ) → Nat × Option γ
  | [] => (0, none)
  | [] :: rest => ((noConsumerRun rest).1 + 1, (noConsumerRun rest).2)
  | (a :: _) :: _ => (1, some a)

/-- Modelled from the spec: the `errorMsg` wire shape, one message object in
the error list of an authentication-error payload (exercised by `TestErrors`
in src/main.go). -/
structure errorMsg where
  message : String
deriving DecidableEq, Repr

/-- Modelled from the spec: `checkErrors` joins the messages of an error list
with a comma and a space (behaviour fixed by `TestErrors` in src/main.go). -/
def checkErrors (es : List errorMsg) : String :=
  String.intercalate ", " (es.map errorMsg.message)

/-- Modelled from the spec: the authentication-error payload, a top-level
status string plus a list of message objects. -/
structure AuthError where
  Status : String
  Errors : List errorMsg
deriving DecidableEq, Repr

/-- Modelled from the spec: `AuthError.Error()` renders "STATUS: msg1, msg2"
when a status is present, else "msg1, msg2" (behaviour fixed by `TestErrors`
in src/main.go). -/
def AuthError.error (e : AuthError) : String :=
  if e.Status = "" then checkErrors e.Errors
  else e.Status ++ ": " ++ checkErrors e.Errors

/-- Modelled from the spec: the resource-error payload `Error`, a mapping
from field name to human-readable message plus an optional top-level message
(unmarshalled from JSON; an absent message unmarshals to the empty string). -/
structure Error where
  errors : List (String × String)
  message : String
deriving DecidableEq, Repr

/-- Modelled from the spec: `Error.Error()` renders the top-level message
when present, else the field/message mapping as "field: message" pairs
(behaviour fixed by `TestErrors` in src/main.go). -/
def Error.error (e : Error) : String :=
  if e.message = "" then
    String.intercalate ", " (e.errors.map fun p => p.1 ++ ": " ++ p.2)
  else e.message

/-! Helper lemmas about the trace of a Paginator run and the collector loop. -/

/-- Draining a run of item deliveries prepends exactly those items, in order,
to whatever the collector loop produces on the rest of the trace. -/
theorem collectLoop_items_append {γ : Type} (its : List γ) (t : List (Event γ)) :
    collectLoop (its.map Event.item ++ t) =
      (its ++ (collectLoop t).1, (collectLoop t).2) := by
  induction its with
  | nil => simp
  | cons a as ih => simp [collectLoop, ih]

/-- The trace of a Paginator run is never empty: every run ends with a signal
on the error stream (a delivered value or the stream closing). -/
theorem paginatorTrace_ne_nil {γ : Type} (pages : List (PageResult γ)) :
    paginatorTrace pages ≠ [] := by
  match pages with
  | [] => simp [paginatorTrace]
  | .fetchErr e :: rest => simp [paginatorTrace]
  | .page sent none :: rest =>
      simp only [paginatorTrace]
      intro h
      rcases List.append_eq_nil.mp h with ⟨-, h2⟩
      exact paginatorTrace_ne_nil rest h2
  | .page sent (some e) :: rest => simp [paginatorTrace]

/-- Collecting the trace of error-free pages yields the concatenation of the
items each page sent, in page order, and no error. -/
theorem collectLoop_trace_clean {γ : Type} (pages : List (PageResult γ))
    (h : ∀ p ∈ pages, p.isClean = true) :
    collectLoop (paginatorTrace pages) =
      ((pages.map PageResult.sentItems).flatten, none) := by
  induction pages with
  | nil => rfl
  | cons p rest ih =>
      have hp : p.isClean = true := h p (List.mem_cons_self p rest)
      match p, hp with
      | .page sent none, _ =>
          have ih' := ih fun q hq => h q (List.mem_cons_of_mem _ hq)
          simp [paginatorTrace, collectLoop_items_append, ih', PageResult.sentItems]

/-- A decoder that reports no error on a successfully decoded body turns every
successfully decoded fetch into a clean page. -/
theorem Fetch.run_isClean {β γ : Type}
    (send : Except Err (List β) → List γ × Option Err)
    (hsend : ∀ its, (send (Except.ok its)).2 = none)
    (f : Fetch β) (hf : f.isOk = true) :
    (Fetch.run send f).isClean = true := by
  match f, hf with
  | .body (.ok its), _ =>
      simp [Fetch.run, PageResult.isClean, hsend its]

/-- Item deliveries are never error-stream values. -/
theorem countP_errValue_map_item {γ : Type} (its : List γ) :
    (its.map Event.item).countP Event.isErrValue = 0 := by
  induction its with
  | nil => rfl
  | cons a as ih => simp [List.countP_cons, Event.isErrValue, ih]

/-- Every Paginator trace carries at most one error-stream value. -/
theorem trace_countP_errValue_le_one {γ : Type} (pages : List (PageResult γ)) :
    (paginatorTrace pages).countP Event.isErrValue ≤ 1 := by
  match pages with
  | [] => simp [paginatorTrace, List.countP_cons, Event.isErrValue]
  | .fetchErr e :: rest => simp [paginatorTrace, List.countP_cons, Event.isErrValue]
  | .page sent none :: rest =>
      have ih := trace_countP_errValue_le_one rest
      rw [paginatorTrace, List.countP_append, countP_errValue_map_item]
      simpa using ih
  | .page sent (some e) :: rest =>
      rw [paginatorTrace, List.countP_append, countP_errValue_map_item]
      simp [List.countP_cons, Event.isErrValue]

/-- An error-stream value appearing anywhere in a Paginator trace is the last
signal of the trace. -/
theorem trace_errValue_getLast {γ : Type} (pages : List (PageResult γ)) (e : Err)
    (he : Event.errValue e ∈ paginatorTrace pages) :
    (paginatorTrace pages).getLast? = some (Event.errValue e) := by
  match pages with
  | [] => simp [paginatorTrace] at he
  | .fetchErr e0 :: rest =>
      simp only [paginatorTrace, List.mem_singleton, Event.errValue.injEq] at he
      simp [paginatorTrace, he]
  | .page sent none :: rest =>
      rw [paginatorTrace] at he ⊢
      rw [List.getLast?_append_of_ne_nil _ (paginatorTrace_ne_nil rest)]
      rcases List.mem_append.mp he with hin | hin
      · rcases List.mem_map.mp hin with ⟨a, -, ha⟩
        cases ha
      · exact trace_errValue_getLast rest e hin
  | .page sent (some e0) :: rest =>
      rw [paginatorTrace] at he ⊢
      rw [List.getLast?_append_of_ne_nil _ (by simp)]
      rcases List.mem_append.mp he with hin | hin
      · rcases List.mem_map.mp hin with ⟨a, -, ha⟩
        cases ha
      · simp only [List.mem_singleton, Event.errValue.injEq] at hin
        simp [hin]

/-! Claim theorems. -/

/-- C1: For every run of the Collector (the select loop in ListAssignments,
collectUsers, DiscussionTopics) over a sequence of N pages in which no error
occurs, the returned sequence equals the concatenation of all decoded items
in page order (and within a page, in decode order), and the returned error
is null. -/
theorem canvas_C1 :
    (∀ (c : Course) (env : List (Fetch Assignment)), (∀ f ∈ env, f.isOk = true) →
      c.ListAssignments env =
        ((env.map fun f => (Fetch.run (assignmentsSendFunc c) f).sentItems).flatten,
          none)) ∧
    (∀ (c : Course) (env : List (Fetch User)), (∀ f ∈ env, f.isOk = true) →
      c.collectUsers env =
        ((env.map fun f => (Fetch.run (sendUserFunc c.client) f).sentItems).flatten,
          none)) ∧
    (∀ (c : Course) (env : List (Fetch DiscussionTopic)), (∀ f ∈ env, f.isOk = true) →
      c.DiscussionTopics env =
        ((env.map fun f => (Fetch.run sendDiscussionTopicFunc f).sentItems).flatten,
          none)) := by
  refine ⟨?_, ?_, ?_⟩ <;> intro c env henv
  · rw [Course.ListAssignments, collectLoop_trace_clean, List.map_map]
    · rfl
    · intro p hp
      rcases List.mem_map.mp hp with ⟨f, hf, rfl⟩
      exact Fetch.run_isClean _ (fun its => rfl) f (henv f hf)
  · rw [Course.collectUsers, collectLoop_trace_clean, List.map_map]
    · rfl
    · intro p hp
      rcases List.mem_map.mp hp with ⟨f, hf, rfl⟩
      exact Fetch.run_isClean _ (fun its => rfl) f (henv f hf)
  · rw [Course.DiscussionTopics, collectLoop_trace_clean, List.map_map]
    · rfl
    · intro p hp
      rcases List.mem_map.mp hp with ⟨f, hf, rfl⟩
      exact Fetch.run_isClean _ (fun its => rfl) f (henv f hf)

/-- Witness for C1: two clean one-assignment pages collect to the two decoded
assignments, in page order, with their fields set and a null error. -/
theorem canvas_C1_witness :
    (Course.mk 1 "code" ⟨7⟩ defaultErrorHandler).ListAssignments
        [Fetch.body (Except.ok [{ id := 10, name := "hw" }]),
         Fetch.body (Except.ok [{ id := 11, name := "quiz" }])] =
      ([{ id := 10, name := "hw", client := some ⟨7⟩, courseCode := "code" },
        { id := 11, name := "quiz", client := some ⟨7⟩, courseCode := "code" }],
        none) := by
  have h := canvas_C1.1 (Course.mk 1 "code" ⟨7⟩ defaultErrorHandler)
    [Fetch.body (Except.ok [{ id := 10, name := "hw" }]),
     Fetch.body (Except.ok [{ id := 11, name := "quiz" }])] (by decide)
  exact h.trans (by decide)

/-- C2: For every Paginator run, at most one value is ever delivered on the
error stream, and delivering that value is the last signal of the run: no
item and no second error-stream value can follow it before the streams close. -/
theorem canvas_C2 {γ : Type} (pages : List (PageResult γ)) :
    (paginatorTrace pages).countP Event.isErrValue ≤ 1 ∧
    (∀ e : Err, Event.errValue e ∈ paginatorTrace pages →
      (paginatorTrace pages).getLast? = some (Event.errValue e)) :=
  ⟨trace_countP_errValue_le_one pages, fun e he => trace_errValue_getLast pages e he⟩

/-- Witness for C2: a run of one clean page followed by a transport failure
delivers exactly one error-stream value, as its final signal. -/
theorem canvas_C2_witness :
    (paginatorTrace
        [PageResult.page ([1, 2] : List Nat) none, PageResult.fetchErr ⟨"boom"⟩]).countP
        Event.isErrValue ≤ 1 ∧
    (paginatorTrace
        [PageResult.page ([1, 2] : List Nat) none,
         PageResult.fetchErr ⟨"boom"⟩]).getLast? =
      some (Event.errValue ⟨"boom"⟩) :=
  ⟨(canvas_C2 _).1, (canvas_C2 _).2 ⟨"boom"⟩ (by decide)⟩

/-- C3: For every run in which page K (1-indexed) fails to decode, the
Collector returns exactly the items from pages 1..K-1 plus the items the
failing page's decode call pushed before the failure, together with a
non-null error; no item from any later page appears in the result. -/
theorem canvas_C3 {γ : Type} (pref : List (PageResult γ)) (sent : List γ) (e : Err)
    (rest : List (PageResult γ)) (h : ∀ p ∈ pref, p.isClean = true) :
    collectLoop (paginatorTrace (pref ++ PageResult.page sent (some e) :: rest)) =
      ((pref.map PageResult.sentItems).flatten ++ sent, some e) := by
  induction pref with
  | nil => simp [paginatorTrace, collectLoop_items_append, collectLoop]
  | cons p ps ih =>
      have hp : p.isClean = true := h p (List.mem_cons_self p ps)
      match p, hp with
      | .page s none, _ =>
          have ih' := ih fun q hq => h q (List.mem_cons_of_mem _ hq)
          simp [paginatorTrace, collectLoop_items_append, ih', PageResult.sentItems,
            List.append_assoc]

/-- Witness for C3: with one clean page before a failing page and one page
after it, the collector returns the first page's item, the failing page's
partial item, the decode error, and nothing from the later page. -/
theorem canvas_C3_witness :
    collectLoop (paginatorTrace
        ([PageResult.page ([1] : List Nat) none] ++
          PageResult.page [2] (some ⟨"bad"⟩) :: [PageResult.page [3] none])) =
      (([1, 2] : List Nat), some ⟨"bad"⟩) := by
  have h := canvas_C3 [PageResult.page ([1] : List Nat) none] [2] ⟨"bad"⟩
    [PageResult.page [3] none] (by decide)
  exact h.trans (by decide)

/-- C4: For every page and every supplied page decoder (sendFilesFunc,
sendFoldersFunc, sendUserFunc, the assignments decoder), if the decoder
returns an error then zero items from that page have been sent on the item
stream: each decoder unmarshals the entire page body before sending any
item, so decode of a single page is all-or-nothing for the item stream. -/
theorem canvas_C4 :
    (∀ (d : Doer) (folder : Option Folder) (e : Err),
        sendFilesFunc d folder (Except.error e) = ([], some e)) ∧
    (∀ (d : Doer) (parent : Option Folder) (e : Err),
        sendFoldersFunc d parent (Except.error e) = ([], some e)) ∧
    (∀ (d : Doer) (e : Err), sendUserFunc d (Except.error e) = ([], some e)) ∧
    (∀ (c : Course) (e : Err), assignmentsSendFunc c (Except.error e) = ([], some e)) :=
  ⟨fun _ _ _ => rfl, fun _ _ _ => rfl, fun _ _ => rfl, fun _ _ => rfl⟩

/-- C5: For every streaming call whose error handler sets the cancellation
signal after an error arrives, the Error Bridge closes the item channel, so
any in-progress or future iteration over the item stream yields zero further
items and terminates at once instead of blocking forever or panicking. -/
theorem canvas_C5 (h : Err → HandlerResult) (e : Err) (ch : ChanState)
    (hc : ∀ e1, (h e1).cancels = true) :
    handleErrs (some e) h ch = ChanState.closed ∧
    rangeAfterStop Assignment (handleErrs (some e) h ch) = some [] := by
  have hcl : handleErrs (some e) h ch = ChanState.closed := by
    simp [handleErrs, hc e]
  exact ⟨hcl, by rw [hcl]; rfl⟩

/-- Witness for C5: a handler that always cancels closes the channel after
the error, and iterating it afterwards terminates with no items. -/
theorem canvas_C5_witness :
    handleErrs (some ⟨"boom"⟩) (fun _ => HandlerResult.handled true) ChanState.opened =
      ChanState.closed ∧
    rangeAfterStop Assignment
        (handleErrs (some ⟨"boom"⟩) (fun _ => HandlerResult.handled true)
          ChanState.opened) =
      some [] :=
  canvas_C5 (fun _ => HandlerResult.handled true) ⟨"boom"⟩ ChanState.opened
    (fun _ => rfl)

/-- C6: For every Paginator run whose item stream has capacity for exactly
one pending item and whose consumer never reads, the fetch loop suspends
after producing one unread item: with k leading empty pages before the first
page that yields an item, exactly k + 1 fetches are issued (the empty pages
plus the one that produced the item), the loop suspends holding that item,
and no page beyond the producing one — in particular no second page after it
— is ever fetched while the item remains unconsumed. -/
theorem canvas_C6 {γ : Type} (k : Nat) (a : γ) (more : List γ) (rest : List (List γ)) :
    noConsumerRun (List.replicate k [] ++ (a :: more) :: rest) = (k + 1, some a) := by
  induction k with
  | zero => rfl
  | succ n ih => simp [List.replicate_succ, noConsumerRun, ih]

/-- C7: For every Course on which SetErrorHandler has never been called, the
error handler used by streaming calls is the default fatal-abort handler,
which panics on any pagination error; calling SetErrorHandler replaces this
handler for all subsequent paginated calls on that Course. -/
theorem canvas_C7 :
    (∀ e : Err, defaultErrorHandler e = HandlerResult.panicked e) ∧
    (∀ (i : Nat) (code : String) (d : Doer),
        (newCourse i code d).errorHandler = defaultErrorHandler ∧
        ((newCourse i code d).Assignments).handler = defaultErrorHandler) ∧
    (∀ (c : Course) (f : Err → HandlerResult),
        (c.SetErrorHandler f).errorHandler = f ∧
        ((c.SetErrorHandler f).Assignments).handler = f ∧
        ((c.SetErrorHandler f).Files).handler = f ∧
        ((c.SetErrorHandler f).Folders).handler = f) :=
  ⟨fun _ => rfl, fun _ _ _ => ⟨rfl, rfl⟩, fun _ _ => ⟨rfl, rfl, rfl, rfl⟩⟩

/-- C8: For every non-2xx error payload, the rendered error text is
"STATUS: msg1, msg2" when a status is present, "msg1, msg2" when only a
message list is present, and "field: message" pairs when only the
field/message mapping is present; in particular the payload carrying the
mapping end_date to no together with the message "error" renders as
"error", and the payload carrying only that mapping renders as
"end_date: no". -/
theorem canvas_C8 :
    (∀ (st : String) (msgs : List errorMsg), st ≠ "" →
        (AuthError.mk st msgs).error = st ++ ": " ++ checkErrors msgs) ∧
    (∀ msgs : List errorMsg, (AuthError.mk "" msgs).error = checkErrors msgs) ∧
    (∀ pairs : List (String × String),
        (Error.mk pairs "").error =
          String.intercalate ", " (pairs.map fun p => p.1 ++ ": " ++ p.2)) ∧
    (Error.mk [("end_date", "no")] "error").error = "error" ∧
    (Error.mk [("end_date", "no")] "").error = "end_date: no" := by
  refine ⟨?_, ?_, ?_, ?_, ?_⟩
  · intro st msgs hst
    simp [AuthError.error, hst]
  · intro msgs
    simp [AuthError.error]
  · intro pairs
    simp [Error.error]
  · decide
  · decide

/-- Witness for C8: the first TestErrors case, a status with two messages,
renders with the status prefix and the comma-joined message list. -/
theorem canvas_C8_witness :
    (AuthError.mk "test" [⟨"one"⟩, ⟨"two"⟩]).error = "test: one, two" := by
  have h := canvas_C8.1 "test" [⟨"one"⟩, ⟨"two"⟩] (by decide)
  exact h.trans (by decide)

/-- C9: Every item delivered on an item stream has its client field set to
the paginator's request capability before being sent — files additionally
get their folder set, folders their parent, and every assignment its
courseCode set to the owning course's code — for every page and every item
of the stream. -/
theorem canvas_C9 :
    (∀ (d : Doer) (folder : Option Folder) (dec : Except Err (List File)) (f : File),
        f ∈ (sendFilesFunc d folder dec).1 → f.client = some d ∧ f.folder = folder) ∧
    (∀ (d : Doer) (parent : Option Folder) (dec : Except Err (List Folder)) (f : Folder),
        f ∈ (sendFoldersFunc d parent dec).1 → f.client = some d ∧ f.parent = parent) ∧
    (∀ (d : Doer) (dec : Except Err (List User)) (u : User),
        u ∈ (sendUserFunc d dec).1 → u.client = some d) ∧
    (∀ (c : Course) (dec : Except Err (List Assignment)) (a : Assignment),
        a ∈ (assignmentsSendFunc c dec).1 →
          a.client = some c.client ∧ a.courseCode = c.CourseCode) := by
  refine ⟨?_, ?_, ?_, ?_⟩
  · intro d folder dec f hf
    match dec with
    | .error e => simp [sendFilesFunc] at hf
    | .ok l =>
        simp only [sendFilesFunc, List.mem_map] at hf
        rcases hf with ⟨x, -, rfl⟩
        exact ⟨rfl, rfl⟩
  · intro d parent dec f hf
    match dec with
    | .error e => simp [sendFoldersFunc] at hf
    | .ok l =>
        simp only [sendFoldersFunc, List.mem_map] at hf
        rcases hf with ⟨x, -, rfl⟩
        cases x with
        | mk i c p => exact ⟨rfl, rfl⟩
  · intro d dec u hu
    match dec with
    | .error e => simp [sendUserFunc] at hu
    | .ok l =>
        simp only [sendUserFunc, List.mem_map] at hu
        rcases hu with ⟨x, -, rfl⟩
        rfl
  · intro c dec a ha
    match dec with
    | .error e => simp [assignmentsSendFunc] at ha
    | .ok l =>
        simp only [assignmentsSendFunc, List.mem_map] at ha
        rcases ha with ⟨x, -, rfl⟩
        exact ⟨rfl, rfl⟩

/-- Witness for C9: the single file sent from a one-file page carries the
client it was given and the folder of the pager. -/
theorem canvas_C9_witness :
    (⟨5, some ⟨3⟩, none⟩ : File) ∈
      (sendFilesFunc ⟨3⟩ none (Except.ok [⟨5, none, none⟩])).1 ∧
    (⟨5, some ⟨3⟩, none⟩ : File).client = some ⟨3⟩ ∧
    (⟨5, some ⟨3⟩, none⟩ : File).folder = none := by
  have hmem : (⟨5, some ⟨3⟩, none⟩ : File) ∈
      (sendFilesFunc ⟨3⟩ none (Except.ok [⟨5, none, none⟩])).1 := by
    simp [sendFilesFunc]
  exact ⟨hmem, canvas_C9.1 ⟨3⟩ none (Except.ok [⟨5, none, none⟩]) _ hmem⟩

/-- C10: SetErrorHandler mutates only the Course's errorHandler field, and
each streaming call (Assignments, Files, Folders) reads the handler exactly
once, as a snapshot taken at the moment the stream is started; replacing the
handler afterwards changes only the handler of streams started later, not
the snapshot governing an already-running stream. -/
theorem canvas_C10 :
    (∀ (c : Course) (f : Err → HandlerResult),
        (c.SetErrorHandler f).ID = c.ID ∧
        (c.SetErrorHandler f).CourseCode = c.CourseCode ∧
        (c.SetErrorHandler f).client = c.client ∧
        (c.SetErrorHandler f).errorHandler = f) ∧
    (∀ c : Course,
        (c.Assignments).handler = c.errorHandler ∧
        (c.Files).handler = c.errorHandler ∧
        (c.Folders).handler = c.errorHandler) ∧
    (∀ (c : Course) (f : Err → HandlerResult),
        (c.Assignments).handler = c.errorHandler ∧
        ((c.SetErrorHandler f).Assignments).handler = f) :=
  ⟨fun _ _ => ⟨rfl, rfl, rfl, rfl⟩, fun _ => ⟨rfl, rfl, rfl⟩, fun _ _ => ⟨rfl, rfl⟩⟩

end Canvas
